/-
Verification of the action-package import & synchronization engine
(`sema4ai.action_server`): a shallow embedding of
`_actions_import.py` (import_action_package, _get_actions_version,
_add_actions_to_db) and the batch driver `cli._import_actions`,
together with theorems settling the specification's claims about
reconciliation, pruning, error classification, the version gate,
whitelisting, the environment cache key and the extensibility hook.

External collaborators (the persistence engine's row operations, the
whitelist matcher, `format_lint_results`, `create_hash`, `gen_uuid`,
`json.loads`, filesystem/subprocess results) are modelled as explicit
parameters or oracle fields, mirroring the spec's interface-only view
of them; everything else is translated from the source.
-/
import Mathlib

namespace ActionsImport

/-! ## Python values

`PyObj` models the Python values produced by `yaml.safe_load` and
`json.loads` (restricted to the JSON-like fragment the engine
manipulates: None, bools, ints, strings, lists and string-keyed
dicts).  A dict is carried as its key/value list in insertion order,
which is exactly what CPython preserves and what `repr` serializes. -/

inductive PyObj where
  | null
  | bool (b : Bool)
  | int (n : Int)
  | str (s : String)
  | list (xs : List PyObj)
  | dict (kvs : List (String × PyObj))

/-- `d.get(k)`: Python dict lookup.  Building a dict from a key/value
sequence keeps the last binding of a duplicated key, so lookup scans
the reversed list. -/
def dictGet (kvs : List (String × PyObj)) (k : String) : Option PyObj :=
  (kvs.reverse.find? (fun p => p.1 == k)).map (·.2)

/-- Python truthiness (`if x:`) for the modelled values. -/
def PyObj.truthy : PyObj → Bool
  | .null => false
  | .bool b => b
  | .int n => n != 0
  | .str s => s != ""
  | .list xs => !xs.isEmpty
  | .dict kvs => !kvs.isEmpty

def PyObj.isDict : PyObj → Bool
  | .dict _ => true
  | _ => false

/-! ### An injective canonical encoding of `PyObj`

Modelled from the spec: the engine derives the environment cache key
from "the in-memory parsed representation (e.g., its canonical
textual representation)" — in the source, `create_hash(repr(contents))`.
Python's `repr` is an external builtin; the engine relies only on it
being a canonical (injective) serialization of the parsed value that
follows dict insertion order.  `pyrepr` below models it as such an
encoding; its exact text is irrelevant and is not modelled. -/

def encodeInt : Int → Nat
  | .ofNat n => Nat.pair 0 n
  | .negSucc n => Nat.pair 1 n

def encodeCharList : List Char → Nat
  | [] => 0
  | c :: cs => Nat.pair c.toNat (encodeCharList cs) + 1

def encodeStr (s : String) : Nat :=
  encodeCharList s.data

mutual

def encodePy : PyObj → Nat
  | .null => Nat.pair 0 0
  | .bool b => Nat.pair 1 (cond b 1 0)
  | .int i => Nat.pair 2 (encodeInt i)
  | .str s => Nat.pair 3 (encodeStr s)
  | .list xs => Nat.pair 4 (encodePyList xs)
  | .dict kvs => Nat.pair 5 (encodePyDict kvs)

def encodePyList : List PyObj → Nat
  | [] => 0
  | x :: xs => Nat.pair (encodePy x) (encodePyList xs) + 1

def encodePyDict : List (String × PyObj) → Nat
  | [] => 0
  | (k, v) :: kvs => Nat.pair (encodeStr k) (Nat.pair (encodePy v) (encodePyDict kvs)) + 1

end

/-- Modelled from the spec: Python's `repr` of the parsed manifest
value — a canonical textual representation of the in-memory structure,
following dict insertion order.  The engine relies only on its
canonicity (injectivity) and order-sensitivity, so the concrete text
is an arbitrary injective rendering of the canonical encoding. -/
def pyrepr (v : PyObj) : String :=
  String.mk (List.replicate (encodePy v) 'r')

/-! ### Small string utilities

Kernel-reducible stand-ins for the Python string builtins the source
uses (`str(int)`, `".".join`, `.strip()`, `.split('.')`, `int(...)`,
`str.replace('.', '-')`), so concrete runs evaluate by `decide`. -/

/-- Decimal digits of `n`, most significant first (`fuel`-bounded
structural recursion; `fuel = n + 1` always suffices). -/
def natDecimalChars : Nat → Nat → List Char
  | 0, _ => []
  | fuel + 1, n =>
    if n < 10 then [Char.ofNat (48 + n)]
    else natDecimalChars fuel (n / 10) ++ [Char.ofNat (48 + n % 10)]

/-- Python `str` of an integer. -/
def intToStr (i : Int) : String :=
  match i with
  | .ofNat n => String.mk (natDecimalChars (n + 1) n)
  | .negSucc n => String.mk ('-' :: natDecimalChars (n + 2) (n + 1))

/-- Python `".".join(strs)`. -/
def joinDots : List String → String
  | [] => ""
  | [s] => s
  | s :: rest => s ++ "." ++ joinDots rest

/-- `".".join(str(x) for x in v)` as used for version tuples. -/
def versionStr (v : List Int) : String :=
  joinDots (v.map intToStr)

def isPySpace (c : Char) : Bool :=
  c = ' ' || c = '\t' || c = '\n' || c = '\r'

/-- Python `str.strip()`. -/
def pyStrip (s : String) : List Char :=
  ((s.data.dropWhile isPySpace).reverse.dropWhile isPySpace).reverse

/-- Python `str.split('.')`. -/
def splitOnDot (cs : List Char) : List (List Char) :=
  match cs with
  | [] => [[]]
  | c :: rest =>
    match splitOnDot rest with
    | [] => [[]]
    | grp :: grps => if c = '.' then [] :: grp :: grps else (c :: grp) :: grps

def digitVal (c : Char) : Option Nat :=
  if 48 ≤ c.toNat && c.toNat ≤ 57 then some (c.toNat - 48) else none

def parseDigits (cs : List Char) (acc : Nat) : Option Nat :=
  match cs with
  | [] => some acc
  | c :: rest =>
    match digitVal c with
    | some d => parseDigits rest (acc * 10 + d)
    | none => none

/-- Python `int(str)` (restricted to the optionally-signed decimal
forms the version probe can produce). -/
def pyInt (cs : List Char) : Option Int :=
  match cs with
  | [] => none
  | '-' :: rest =>
    match rest with
    | [] => none
    | _ => (parseDigits rest 0).map (fun n => -(n : Int))
  | _ => (parseDigits cs 0).map (fun n => (n : Int))

/-- `tuple(int(x) for x in str_output.strip().split("."))`: the parse
of the version probe's stdout; `none` models the `int()` call raising. -/
def parseVersionOutput (out : String) : Option (List Int) :=
  (splitOnDot (pyStrip out)).mapM pyInt

/-- Python `libname.replace(".", "-")` (single-character replace). -/
def replaceDotsWithDashes (s : String) : String :=
  String.mk (s.data.map (fun c => if c = '.' then '-' else c))

/-- Whether `needle` occurs as a contiguous substring of `hay`. -/
def charsStartWith : List Char → List Char → Bool
  | _, [] => true
  | [], _ :: _ => false
  | c :: cs, d :: ds => c = d && charsStartWith cs ds

def charsContain (hay needle : List Char) : Bool :=
  match hay with
  | [] => needle.isEmpty
  | _ :: rest => charsStartWith hay needle || charsContain rest needle

def strContains (hay needle : String) : Bool :=
  charsContain hay.data needle.data

/-! ### `json.dumps`

A plain JSON serializer modelling the Python stdlib call used for the
stored schemas and environment mapping (default separators). -/

def jsonEscapeChar (c : Char) : List Char :=
  if c = '"' then ['\\', '"']
  else if c = '\\' then ['\\', '\\'] else [c]

def jsonEscape (s : String) : String :=
  String.mk (s.data.flatMap jsonEscapeChar)

mutual

def json_dumps : PyObj → String
  | .null => "null"
  | .bool true => "true"
  | .bool false => "false"
  | .int i => intToStr i
  | .str s => "\"" ++ jsonEscape s ++ "\""
  | .list xs => "[" ++ json_dumps_list xs ++ "]"
  | .dict kvs => "\x7b" ++ json_dumps_dict kvs ++ "\x7d"

def json_dumps_list : List PyObj → String
  | [] => ""
  | [x] => json_dumps x
  | x :: xs => json_dumps x ++ ", " ++ json_dumps_list xs

def json_dumps_dict : List (String × PyObj) → String
  | [] => ""
  | [(k, v)] => "\"" ++ jsonEscape k ++ "\": " ++ json_dumps v
  | (k, v) :: kvs => "\"" ++ jsonEscape k ++ "\": " ++ json_dumps v ++ ", " ++ json_dumps_dict kvs

end

/-- `json.dumps(use_env)` for the string-to-string environment mapping. -/
def json_dumps_env (env : List (String × String)) : String :=
  json_dumps (.dict (env.map (fun p => (p.1, .str p.2))))

/-! ## Data model

The persisted rows, translated from the `ActionPackage` and `Action`
dataclasses used by `_actions_import.py` (field set as listed in the
spec's data model and used by the source). -/

structure ActionPackage where
  id : String
  name : String
  directory : String
  conda_hash : String
  env_json : String
  deriving DecidableEq, Repr

structure Action where
  id : String
  action_package_id : String
  name : String
  docs : String
  file : String
  lineno : Int
  input_schema : String
  output_schema : String
  enabled : Bool
  is_consequential : Option Bool
  managed_params_schema : String
  deriving DecidableEq, Repr

/-- Modelled from the spec: the catalog store (`_models.get_db()`), of
which only row-level operations are used.  A database is its lists of
`action_package` and `action` rows, in insertion order; the SQL used by
the source (`SELECT * FROM action_package WHERE name = ?`,
`SELECT * FROM action WHERE action_package_id = ?`, `db.all(Action)`,
`db.insert`, `db.update_by_id`) maps to list operations below. -/
structure DB where
  action_packages : List ActionPackage
  actions : List Action
  deriving DecidableEq, Repr

/-- `db.first(ActionPackage, "SELECT * FROM action_package WHERE name = ?", [name])`;
`none` models the `KeyError` raised when no row matches. -/
def DB.firstPackageByName (db : DB) (name : String) : Option ActionPackage :=
  db.action_packages.find? (fun p => p.name == name)

/-- `db.select(Action, "SELECT * FROM action WHERE action_package_id = ?", [id])`. -/
def DB.actionsOfPackage (db : DB) (pkgId : String) : List Action :=
  db.actions.filter (fun a => a.action_package_id == pkgId)

/-- `db.all(Action)`: every action row in the catalog. -/
def DB.allActions (db : DB) : List Action :=
  db.actions

/-- `db.update_by_id(Action, id, fields)`: rewrite the row carrying
`id` with `f`, which never changes the row's `id`. -/
def DB.updateActionById (db : DB) (id : String) (f : Action → Action) : DB :=
  { db with actions := db.actions.map (fun a => if a.id == id then f a else a) }

/-- `db.update_by_id(ActionPackage, id, fields)`. -/
def DB.updatePackageById (db : DB) (id : String) (f : ActionPackage → ActionPackage) : DB :=
  { db with action_packages :=
      db.action_packages.map (fun p => if p.id == id then f p else p) }

def DB.insertPackage (db : DB) (p : ActionPackage) : DB :=
  { db with action_packages := db.action_packages ++ [p] }

def DB.insertAction (db : DB) (a : Action) : DB :=
  { db with actions := db.actions ++ [a] }

def findActionById (db : DB) (id : String) : Option Action :=
  db.actions.find? (fun a => a.id == id)

/-! ## Errors, events, external collaborators -/

/-- The exception kinds raised by the import pipeline.
`pyError` models an uncaught Python-level exception (e.g. a `KeyError`
for a missing required field in an enumerated entry). -/
inductive ImportError where
  | actionPackageError (msg : String)
  | actionServerValidationError (msg : String)
  | runtimeError (msg : String)
  | pyError (msg : String)
  deriving DecidableEq, Repr

/-- Modelled from the spec: the exception class hierarchy.
`ActionPackageError` (vendored_deps `cli_errors`) and
`ActionServerValidationError` (`_errors_action_server`) are declared
outside the sources at hand; the spec's error taxonomy classifies the
bad-directory/manifest failures raised as `ActionPackageError`
together with lint/version failures as validation errors that are
"surfaced verbatim to the caller" and caught by the batch driver, so
`ActionPackageError` is modelled as a validation error (a subclass of
the class `cli._import_actions` catches).  `RuntimeError` and plain
Python exceptions are not validation errors and propagate. -/
def isValidationError : ImportError → Bool
  | .actionPackageError _ => true
  | .actionServerValidationError _ => true
  | .runtimeError _ => false
  | .pyError _ => false

/-- Observable calls to external collaborators: the environment
provisioner (`rcc.create_env_and_get_vars`) and the extensibility hook
(`hook_on_actions_list`), recorded in invocation order. -/
inductive ImportEvent where
  | provisionCalled (conda_hash : String)
  | hookCalled (pkg : ActionPackage) (actions_list : List PyObj)

/-- The packages passed to the extensibility hook, in order. -/
def hookPackages : List ImportEvent → List ActionPackage
  | [] => []
  | .hookCalled pkg _ :: rest => pkg :: hookPackages rest
  | .provisionCalled _ :: rest => hookPackages rest

/-- External pure collaborators, passed as parameters: the whitelist
matcher (`_whitelist`), `format_lint_results` (returning the formatted
message, or `none` when it yields no result), `create_hash` (`_rcc`),
`json.loads` (`none` models a parse exception; values restricted to
the modelled fragment), and `gen_uuid` as the supply of fresh ids
(`gen_uuid n` is the n-th id generated during one import). -/
structure Externals where
  accept_action_package : String → String → Bool
  accept_action : String → String → String → Bool
  format_lint_results : PyObj → Option String
  create_hash : String → String
  json_loads : String → Option PyObj
  gen_uuid : Nat → String

/-- Per-directory results of the filesystem probes and subprocesses
one `import_action_package` call performs, gathered as an oracle:
existence checks, file loads (`none` = open/parse raised), the
provisioner's reply, the two version probes' `check_output` (`none` =
raised), and the enumerator subprocess outcome.  `file_rel` models
`Path(file).absolute()` + `relative_to(import_path)`-with-fallback +
`as_posix()` for enumerated source files. -/
structure ImportOracle where
  path_exists : Bool
  path_is_dir : Bool
  import_path : String
  dir_name : String
  package_yaml_exists : Bool
  package_yaml_load : Option PyObj
  derived_conda_path : String
  action_server_yaml_exists : Bool
  conda_yaml_exists : Bool
  manifest_load : Option PyObj
  is_frozen : Bool
  rcc_success : Bool
  rcc_message : String
  rcc_env : Option (List (String × String))
  directory_path : String
  python_exe : String
  probe_sema4ai : Option String
  probe_robocorp : Option String
  sys_executable : String
  enum_returncode : Int
  enum_stdout : String
  enum_stderr : String
  file_rel : String → String

/-! ## `_get_actions_version` -/

def version_probe_cmdline (python libname : String) : List String :=
  [python, "-c", "import " ++ libname ++ ";print(" ++ libname ++ ".__version__)"]

def version_probe_msg (libname python : String) : String :=
  "Unable to get " ++ libname ++ " version.\n\nThis usually means that `" ++ libname ++
  "` is not installed in the python\nenvironment (make sure that `" ++
  replaceDotsWithDashes libname ++
  "`\nis defined in your `package.yaml`).\n\nPython executable being used:\n" ++
  python ++ "\n"

/-- `_get_actions_version(env, cwd, libname)`: run the version probe
and parse its stdout as a dot-separated integer tuple; any subprocess
or parse failure raises `RuntimeError(msg)`. -/
def _get_actions_version (python libname : String) (check_output : Option String) :
    Except ImportError (List Int) :=
  match check_output with
  | none => .error (.runtimeError (version_probe_msg libname python))
  | some out =>
    match parseVersionOutput out with
    | none => .error (.runtimeError (version_probe_msg libname python))
    | some v => .ok v

/-- Python tuple comparison `v < expected` (lexicographic). -/
def pyTupleLt : List Int → List Int → Bool
  | [], [] => false
  | [], _ :: _ => true
  | _ :: _, [] => false
  | x :: xs, y :: ys => if x < y then true else if y < x then false else pyTupleLt xs ys

def expectedMinVersion : List Int := [0, 0, 7]

def robocorp_version_low_manifest_msg (v : List Int) (original_conda_yaml : String) : String :=
  "Error, the `robocorp-actions` version is: " ++ versionStr v ++ ".\n" ++
  "Expected `robocorp-actions` version to be " ++ versionStr expectedMinVersion ++
  " or higher.\n" ++ "Please update the version in: " ++ original_conda_yaml ++ "\n"

def robocorp_version_low_interp_msg (v : List Int) (sys_executable : String) : String :=
  "Error, the `robocorp-actions` version is: " ++ versionStr v ++ ".\n" ++
  "Expected it to be " ++ versionStr expectedMinVersion ++ " or higher.\n" ++
  "Please update the `robocorp-actions` version in your python environment (python: " ++
  sys_executable ++ ")\n"

/-- The version gate: probe `sema4ai.actions`; on failure fall back to
`robocorp.actions` (re-raising the primary error if both fail), and
for the deprecated library enforce the hard minimum version, with
wording depending on whether a manifest is in use.  The soft
(encryption) minimum only logs a warning. -/
def versionGate (o : ImportOracle) (manifest_exists : Bool) (original_conda_yaml : String) :
    Except ImportError Unit :=
  match _get_actions_version o.python_exe "sema4ai.actions" o.probe_sema4ai with
  | .ok _ => .ok ()
  | .error e1 =>
    match _get_actions_version o.python_exe "robocorp.actions" o.probe_robocorp with
    | .error _ => .error e1
    | .ok v =>
      if pyTupleLt v expectedMinVersion then
        if manifest_exists then
          .error (.actionServerValidationError (robocorp_version_low_manifest_msg v original_conda_yaml))
        else
          .error (.actionServerValidationError (robocorp_version_low_interp_msg v o.sys_executable))
      else .ok ()

/-! ## `_add_actions_to_db` -/

def actionsListCode (skip_lint : Bool) : String :=
  if skip_lint then
    "\ntry:\n    from sema4ai.actions import cli\nexcept:\n    from robocorp.actions import cli\n\ncli.main([\"list\", \"--skip-lint\"])\n"
  else
    "\ntry:\n    from sema4ai.actions import cli\nexcept:\n    from robocorp.actions import cli\n\ncli.main([\"list\"])\n"

def joinSpace : List String → String
  | [] => ""
  | [s] => s
  | s :: rest => s ++ " " ++ joinSpace rest

/-- `subprocess.list2cmdline` (quoting only where the engine's
messages need it: empty arguments or ones containing whitespace). -/
def list2cmdline (args : List String) : String :=
  joinSpace (args.map (fun a =>
    if a = "" || a.data.any (fun c => c = ' ' || c = '\t') then "\"" ++ a ++ "\"" else a))

def couldNotListMsg (cmdline : List String) (import_path stdout stderr : String) : String :=
  "It was not possible to list the actions.\ncmdline: " ++ list2cmdline cmdline ++
  "\ncwd: " ++ import_path ++ "\nstdout:" ++ stdout ++ "\nstderr:" ++ stderr

/-- One pass of the enumerated-actions loop: whitelist-filter each
entry by its `name`, decode the required fields (a missing or
ill-typed required key models the uncaught `KeyError`), and build the
`Action` rows (ids drawn from the `gen_uuid` supply, `enabled=True`). -/
def buildActions (E : Externals) (file_rel : String → String)
    (pkgName pkgId : String) (whitelist : String) :
    List PyObj → Nat → Except ImportError (List Action × Nat)
  | [], n => .ok ([], n)
  | entry :: rest, n =>
    match entry with
    | .dict fields =>
      match dictGet fields "name" with
      | some (.str action_name) =>
        if whitelist ≠ "" && !(E.accept_action whitelist pkgName action_name) then
          buildActions E file_rel pkgName pkgId whitelist rest n
        else
          match dictGet fields "file", dictGet fields "docs", dictGet fields "line",
              dictGet fields "input_schema", dictGet fields "output_schema" with
          | some (.str file), some (.str docs), some (.int line),
            some input_schema, some output_schema =>
            let managed_params_str :=
              match dictGet fields "managed_params_schema" with
              | some m => if m.truthy then json_dumps m else ""
              | none => ""
            let is_consequential : Option Bool :=
              match dictGet fields "options" with
              | some (.dict okvs) =>
                match dictGet okvs "is_consequential" with
                | some (.bool b) => some b
                | _ => none
              | _ => none
            let a : Action := {
              id := E.gen_uuid n
              action_package_id := pkgId
              name := action_name
              docs := docs
              file := file_rel file
              lineno := line
              input_schema := json_dumps input_schema
              output_schema := json_dumps output_schema
              enabled := true
              is_consequential := is_consequential
              managed_params_schema := managed_params_str }
            match buildActions E file_rel pkgName pkgId whitelist rest (n + 1) with
            | .ok (acts, n2) => .ok (a :: acts, n2)
            | .error e => .error e
          | _, _, _, _, _ =>
            .error (.pyError "KeyError: missing or ill-typed required action field")
      | _ => .error (.pyError "KeyError: 'name'")
    | _ => .error (.pyError "TypeError: enumerated entry is not a dict")

/-- One step of the reconciliation loop over discovered actions:
re-point the action at the persisted package, then update the
name-matched existing row in place (all fields but `id`) or insert it
as a new row, tracking the matched/inserted id. -/
def reconcileStep (lookupName : String → Option Action) (existingId : String)
    (st : DB × List String) (a : Action) : DB × List String :=
  let a' := { a with action_package_id := existingId }
  match lookupName a.name with
  | some ex =>
    (st.1.updateActionById ex.id (fun r => { a' with id := r.id }), st.2 ++ [ex.id])
  | none => (st.1.insertAction a', st.2 ++ [a'.id])

/-- One step of the pruning loop: disable the row unless its id was
matched/inserted during this run. -/
def disableStep (seen : List String) (d : DB) (r : Action) : DB :=
  if seen.contains r.id then d
  else d.updateActionById r.id (fun row => { row with enabled := false })

/-- The catalog part of `_add_actions_to_db` (source lines 487-553):
look up the package by name; insert everything if new; otherwise
update the package (preserving its id), reconcile the discovered
actions against the existing ones by name, and — when pruning was
requested — disable every action of the catalog (read via
`db.all(Action)` before the transaction) whose id was not seen. -/
def reconcile (action_package : ActionPackage) (actions : List Action)
    (disable_not_imported : Bool) (db : DB) : DB :=
  match db.firstPackageByName action_package.name with
  | none => actions.foldl DB.insertAction (db.insertPackage action_package)
  | some existing =>
    let existing_actions := db.actionsOfPackage existing.id
    let lookupName := fun n => existing_actions.reverse.find? (fun a => a.name == n)
    let all_actions := db.allActions
    let db1 := db.updatePackageById existing.id (fun p => { action_package with id := p.id })
    let st := actions.foldl (reconcileStep lookupName existing.id) (db1, [])
    if disable_not_imported then all_actions.foldl (disableStep st.2) st.1 else st.1

/-- `_add_actions_to_db`: classify the enumerator subprocess outcome
(exit 1 with a well-formed `lint_result` on stdout is a validation
error; any other non-zero outcome a runtime error), parse stdout as a
JSON array, invoke the extensibility hook, build the filtered actions
and reconcile them into the catalog.  The returned events record the
hook invocation even when a later step fails; an `error` result means
the transaction never committed, so the catalog is the caller's `db`
unchanged. -/
def _add_actions_to_db (E : Externals) (uuidStart : Nat) (skip_lint : Bool)
    (python import_path : String) (enum_returncode : Int)
    (enum_stdout enum_stderr : String) (file_rel : String → String)
    (action_package : ActionPackage) (disable_not_imported : Bool)
    (whitelist : String) (db : DB) : List ImportEvent × Except ImportError DB :=
  let cmdline := [python, "-c", actionsListCode skip_lint]
  if enum_returncode != 0 then
    let lintMsg : Option String :=
      if enum_returncode == 1 then
        match E.json_loads enum_stdout with
        | some (.dict kvs) =>
          match dictGet kvs "lint_result" with
          | some (.dict lkvs) => E.format_lint_results (.dict lkvs)
          | _ => none
        | _ => none
      else none
    match lintMsg with
    | some m => ([], .error (.actionServerValidationError m))
    | none =>
      ([], .error (.runtimeError (couldNotListMsg cmdline import_path enum_stdout enum_stderr)))
  else
    match E.json_loads enum_stdout with
    | none =>
      ([], .error (.runtimeError
        ("It was not possible to load as json the contents >>" ++ enum_stdout ++ "<<")))
    | some (.list entries) =>
      let evs := [ImportEvent.hookCalled action_package entries]
      match buildActions E file_rel action_package.name action_package.id whitelist
          entries uuidStart with
      | .error e => (evs, .error e)
      | .ok (actions, _) =>
        (evs, .ok (reconcile action_package actions disable_not_imported db))
    | some _ =>
      ([], .error (.runtimeError
        ("Expected sema4ai.actions list to provide a list. Found: >>" ++ enum_stdout ++ "<<")))

/-! ## `import_action_package` -/

/-- The environment cache key: `create_hash(repr(contents))`, computed
from the parsed manifest contents only (never from the manifest's raw
bytes).  `create_hash` (`_rcc`) is an external collaborator passed as
a parameter; the spec's hash-stability property corresponds to it
being injective on the representations it is fed. -/
def condahash_of (create_hash : String → String) (contents : PyObj) : String :=
  create_hash (pyrepr contents)

/-- The package name resolved before whitelist filtering: the truthy
`name` declared in `package.yaml` when present, else the directory's
base name ('' marks "not declared"). -/
def resolvePackageName (o : ImportOracle) (contents : PyObj) : String :=
  let n0 :=
    match contents with
    | .dict kvs =>
      match dictGet kvs "name" with
      | some (.str s) => if (PyObj.str s).truthy then s else ""
      | _ => ""
    | _ => ""
  if n0 != "" then n0 else o.dir_name

/-- The name-resolution step of `import_action_package` (source lines
126-147): when `package.yaml` exists its load may raise (`none`),
otherwise the resolved name is produced. -/
def resolvedNameStep (o : ImportOracle) : Option String :=
  if o.package_yaml_exists then o.package_yaml_load.map (resolvePackageName o)
  else some o.dir_name

/-- `import_action_package`: the per-directory pipeline — directory
checks, manifest resolution across the three filename generations,
package-level whitelist short-circuit, cache-key computation and
provisioning, version gate, then enumeration + reconciliation via
`_add_actions_to_db`. -/
def import_action_package (E : Externals) (o : ImportOracle)
    (disable_not_imported skip_lint : Bool) (whitelist : String) (db : DB) :
    List ImportEvent × Except ImportError DB :=
  if !o.path_exists then
    ([], .error (.actionPackageError
      ("Unable to import action package from directory: " ++ o.import_path ++
        " (directory does not exist).")))
  else if !o.path_is_dir then
    ([], .error (.actionPackageError ("Error: expected " ++ o.import_path ++ " to be a directory.")))
  else
    let original_package_yaml := o.import_path ++ "/package.yaml"
    match resolvedNameStep o with
    | none =>
      ([], .error (.actionPackageError
        ("Error loading file as yaml (" ++ original_package_yaml ++ ").")))
    | some action_package_name =>
      if whitelist != "" && !(E.accept_action_package whitelist action_package_name) then
        ([], .ok db)
      else
        let manifest_exists :=
          o.package_yaml_exists || o.action_server_yaml_exists || o.conda_yaml_exists
        let conda_yaml_path :=
          if o.package_yaml_exists then o.derived_conda_path
          else if o.action_server_yaml_exists then o.import_path ++ "/action-server.yaml"
          else o.import_path ++ "/conda.yaml"
        let original_conda_yaml :=
          if o.package_yaml_exists then original_package_yaml
          else if o.action_server_yaml_exists then o.import_path ++ "/action-server.yaml"
          else o.import_path ++ "/conda.yaml"
        let envStep : Except ImportError (String × List (String × String) × Bool) :=
          if !manifest_exists then
            if o.is_frozen then
              .error (.actionServerValidationError
                ("Unable to import actions in standalone action-server because no `package.yaml` is available at: " ++
                  original_package_yaml ++ "."))
            else .ok ("<unmanaged>", [], false)
          else
            match o.manifest_load with
            | none => .error (.actionPackageError (conda_yaml_path ++ " does not seem a valid yaml."))
            | some contents =>
              match contents with
              | .dict kvs =>
                if (match dictGet kvs "dependencies" with
                    | some d => !d.truthy
                    | none => true) then
                  .error (.actionPackageError (conda_yaml_path ++ " has no 'dependencies' specified."))
                else
                  let condahash := condahash_of E.create_hash (.dict kvs)
                  if !o.rcc_success then
                    .error (.actionPackageError
                      ("It was not possible to bootstrap the RCC environment. Error: " ++ o.rcc_message))
                  else
                    match o.rcc_env with
                    | none =>
                      .error (.actionPackageError
                        "It was not possible to get the environment when bootstrapping RCC environment.")
                    | some env => .ok (condahash, env, true)
              | _ => .error (.actionPackageError (conda_yaml_path ++ " has no dict as top-level."))
        match envStep with
        | .error e => ([], .error e)
        | .ok (condahash, use_env, provisioned) =>
          let evs0 : List ImportEvent :=
            if provisioned then [.provisionCalled condahash] else []
          let action_package : ActionPackage := {
            id := E.gen_uuid 0
            name := action_package_name
            directory := o.directory_path
            conda_hash := condahash
            env_json := json_dumps_env use_env }
          match versionGate o manifest_exists original_conda_yaml with
          | .error e => (evs0, .error e)
          | .ok _ =>
            let r := _add_actions_to_db E 1 skip_lint o.python_exe o.import_path
              o.enum_returncode o.enum_stdout o.enum_stderr o.file_rel action_package
              disable_not_imported whitelist db
            (evs0 ++ r.1, r.2)

/-- The catalog after a pipeline step: an `error` outcome means the
per-package transaction rolled back (or was never begun), leaving the
caller's catalog unchanged. -/
def resultingDb (db : DB) (r : List ImportEvent × Except ImportError DB) : DB :=
  match r.2 with
  | .ok db2 => db2
  | .error _ => db

/-! ## `cli._import_actions` (batch driver) -/

/-- `cli._import_actions`: run the pipeline for each directory in turn
(the caller defaults an empty selection to the current directory, so
the oracle list is the post-defaulting directory list); the loop is
wrapped in a single `except ActionServerValidationError` that reports
the error and returns exit code 1, leaving earlier directories'
commits in place; any other exception propagates. -/
def _import_actions (E : Externals) (oracles : List ImportOracle)
    (disable_not_imported skip_lint : Bool) (whitelist : String) (db : DB) :
    Except ImportError (Nat × DB) :=
  match oracles with
  | [] => .ok (0, db)
  | o :: rest =>
    match (import_action_package E o disable_not_imported skip_lint whitelist db).2 with
    | .ok db2 => _import_actions E rest disable_not_imported skip_lint whitelist db2
    | .error e => if isValidationError e then .ok (1, db) else .error e

/-! ## Concrete fixtures

Shared concrete inputs used by witnesses and counterexamples: a
catalog holding package `pkg` (id `P1`) with actions named `A`/`B`, a
second package `Q` with action `Z`, enumerated entries named
`B`/`C`/`x`, and test instantiations of the external collaborators. -/

namespace Fix

def entryB : PyObj := .dict [("name", .str "B"), ("file", .str "/abs/fb.py"),
  ("docs", .str "docs B"), ("line", .int 10), ("input_schema", .dict []),
  ("output_schema", .str "os"),
  ("options", .dict [("is_consequential", .bool true)]),
  ("managed_params_schema", .dict [("x", .int 1)])]

def entryC : PyObj := .dict [("name", .str "C"), ("file", .str "/abs/fc.py"),
  ("docs", .str "docs C"), ("line", .int 20), ("input_schema", .null),
  ("output_schema", .null)]

def entryXFields : List (String × PyObj) := [("name", .str "x"),
  ("file", .str "/abs/fx.py"), ("docs", .str "docs x"), ("line", .int 5),
  ("input_schema", .null), ("output_schema", .null)]

def entryX : PyObj := .dict entryXFields

def lintObj : PyObj := .dict [("lint_result", .dict [("k", .int 1)])]

def loadsTable (s : String) : Option PyObj :=
  if s = "BC" then some (.list [entryB, entryC])
  else if s = "EMPTY" then some (.list [])
  else if s = "X" then some (.list [entryX])
  else if s = "LINT" then some lintObj
  else none

/-- Accept-everything externals. -/
def E0 : Externals := {
  accept_action_package := fun _ _ => true
  accept_action := fun _ _ _ => true
  format_lint_results := fun _ => some "LINTMSG"
  create_hash := fun _ => "HASH"
  json_loads := loadsTable
  gen_uuid := fun n => "uuid" ++ intToStr n }

/-- Externals whose action-level whitelist rejects every action. -/
def Erej : Externals := { E0 with accept_action := fun _ _ _ => false }

/-- Externals whose package-level whitelist rejects every package. -/
def ErejPkg : Externals := { E0 with accept_action_package := fun _ _ => false }

def rowA (docsA : String) : Action := {
  id := "idA"
  action_package_id := "P1"
  name := "A"
  docs := docsA
  file := "fa.py"
  lineno := 1
  input_schema := "isA"
  output_schema := "osA"
  enabled := true
  is_consequential := none
  managed_params_schema := "" }

def rowB (docsA : String) : Action := { rowA docsA with id := "idB", name := "B" }

def rowX : Action := { rowA "dX" with id := "idX", name := "x" }

def rowZ : Action := { rowA "dZ" with id := "idZ", action_package_id := "Q1", name := "Z" }

def pkgP : ActionPackage := {
  id := "P1"
  name := "pkg"
  directory := "d"
  conda_hash := "old"
  env_json := "ej" }

def pkgQ : ActionPackage := { pkgP with id := "Q1", name := "other" }

def dbAB (docsA : String) : DB :=
  { action_packages := [pkgP], actions := [rowA docsA, rowB docsA] }

def dbPQ : DB := { action_packages := [pkgP, pkgQ], actions := [rowA "dA", rowZ] }

def dbX : DB := { action_packages := [pkgP], actions := [rowX] }

/-- The freshly built package record of the re-import (id drawn from
the `gen_uuid` supply at counter 0). -/
def newPkg : ActionPackage := {
  id := "uuid0"
  name := "pkg"
  directory := "d2"
  conda_hash := "HASH"
  env_json := "x" }

/-- `entryB` decoded to a row: what reconciliation writes over `B`'s
persisted row (its id preserved). -/
def updB : Action := {
  id := "idB"
  action_package_id := "P1"
  name := "B"
  docs := "docs B"
  file := "/abs/fb.py"
  lineno := 10
  input_schema := "\x7b\x7d"
  output_schema := "\"os\""
  enabled := true
  is_consequential := some true
  managed_params_schema := "\x7b\"x\": 1\x7d" }

/-- `entryC` decoded to a freshly inserted row (id from the supply at
counter 2). -/
def newC : Action := {
  id := "uuid2"
  action_package_id := "P1"
  name := "C"
  docs := "docs C"
  file := "/abs/fc.py"
  lineno := 20
  input_schema := "null"
  output_schema := "null"
  enabled := true
  is_consequential := none
  managed_params_schema := "" }

/-- The parsed manifest used by the pipeline-level fixtures. -/
def manifestKvs : List (String × PyObj) :=
  [("name", .str "pkg"), ("dependencies", .list [.str "dep1"])]

/-- A fully successful per-directory oracle: `package.yaml` present
and parseable, provisioning succeeds, the primary version probe
raises, the deprecated probe answers `ver`, and the enumerator exits 0
discovering nothing. -/
def oGate (p ver : String) : ImportOracle := {
  path_exists := true
  path_is_dir := true
  import_path := p
  dir_name := "dir"
  package_yaml_exists := true
  package_yaml_load := some (.dict manifestKvs)
  derived_conda_path := "/dc"
  action_server_yaml_exists := false
  conda_yaml_exists := false
  manifest_load := some (.dict manifestKvs)
  is_frozen := false
  rcc_success := true
  rcc_message := ""
  rcc_env := some []
  directory_path := "d2"
  python_exe := "/py"
  probe_sema4ai := none
  probe_robocorp := some ver
  sys_executable := "/sysPy"
  enum_returncode := 0
  enum_stdout := "EMPTY"
  enum_stderr := ""
  file_rel := id }

/-- Same, but with no manifest of any generation (unmanaged route),
and `x` as the active interpreter. -/
def oNoManifest (x ver : String) : ImportOracle := {
  oGate "/ip" ver with
  package_yaml_exists := false
  package_yaml_load := none
  manifest_load := none
  sys_executable := x }

/-- A directory that does not exist. -/
def badO : ImportOracle := { oGate "/ip" "0.0.7\n" with path_exists := false }

/-- The package row a successful `oGate` import writes into an empty
catalog. -/
def pkgGate : ActionPackage := {
  id := "uuid0"
  name := "pkg"
  directory := "d2"
  conda_hash := "HASH"
  env_json := "\x7b\x7d" }

/-- Two parsed manifests equal as mappings but with the two keys in
opposite insertion order. -/
def c7a : List (String × PyObj) := [("dependencies", .list [.str "d1"]), ("name", .str "n")]

def c7b : List (String × PyObj) := [("name", .str "n"), ("dependencies", .list [.str "d1"])]

/-- What a pruning re-import of `pkg` discovering nothing does to the
two-package catalog `dbPQ`: both catalogued actions end up disabled —
including `Z`, which belongs to the other package `Q`. -/
def dbPQ' : DB := {
  action_packages := [{ newPkg with id := "P1" }, pkgQ]
  actions := [{ rowA "dA" with enabled := false }, { rowZ with enabled := false }] }

/-- What a pruning re-import whose enumeration finds `x` — rejected by
the action whitelist — does to `dbX`: `x`'s row is disabled. -/
def dbX' : DB := {
  action_packages := [{ newPkg with id := "P1" }]
  actions := [{ rowX with enabled := false }] }

end Fix

/-! ## Lemmas: injectivity of the canonical encoding -/

theorem encodeInt_inj : ∀ a b : Int, encodeInt a = encodeInt b → a = b
  | .ofNat _, .ofNat _, h => by
    simp only [encodeInt, Nat.pair_eq_pair] at h
    exact congrArg Int.ofNat h.2
  | .ofNat _, .negSucc _, h => by simp [encodeInt, Nat.pair_eq_pair] at h
  | .negSucc _, .ofNat _, h => by simp [encodeInt, Nat.pair_eq_pair] at h
  | .negSucc _, .negSucc _, h => by
    simp only [encodeInt, Nat.pair_eq_pair] at h
    exact congrArg Int.negSucc h.2
theorem encodeCharList_inj : ∀ a b : List Char, encodeCharList a = encodeCharList b → a = b
  | [], [], _ => rfl
  | [], _ :: _, h => by simp [encodeCharList] at h
  | _ :: _, [], h => by simp [encodeCharList] at h
  | c :: cs, d :: ds, h => by
    simp only [encodeCharList, Nat.add_right_cancel_iff, Nat.pair_eq_pair] at h
    have hc : c = d := Char.ext (UInt32.ext h.1)
    have hcs : cs = ds := encodeCharList_inj cs ds h.2
    rw [hc, hcs]
theorem encodeStr_inj (a b : String) (h : encodeStr a = encodeStr b) : a = b := by
  cases a with
  | mk da =>
    cases b with
    | mk db => exact congrArg String.mk (encodeCharList_inj da db h)
mutual

theorem encodePy_inj : ∀ a b : PyObj, encodePy a = encodePy b → a = b
  | .null, .null, _ => rfl
  | .null, .bool _, h => by simp [encodePy, Nat.pair_eq_pair] at h
  | .null, .int _, h => by simp [encodePy, Nat.pair_eq_pair] at h
  | .null, .str _, h => by simp [encodePy, Nat.pair_eq_pair] at h
  | .null, .list _, h => by simp [encodePy, Nat.pair_eq_pair] at h
  | .null, .dict _, h => by simp [encodePy, Nat.pair_eq_pair] at h
  | .bool _, .null, h => by simp [encodePy, Nat.pair_eq_pair] at h
  | .bool a, .bool b, h => by
    cases a <;> cases b <;> simp_all [encodePy, Nat.pair_eq_pair]
  | .bool _, .int _, h => by simp [encodePy, Nat.pair_eq_pair] at h
  | .bool _, .str _, h => by simp [encodePy, Nat.pair_eq_pair] at h
  | .bool _, .list _, h => by simp [encodePy, Nat.pair_eq_pair] at h
  | .bool _, .dict _, h => by simp [encodePy, Nat.pair_eq_pair] at h
  | .int _, .null, h => by simp [encodePy, Nat.pair_eq_pair] at h
  | .int _, .bool _, h => by simp [encodePy, Nat.pair_eq_pair] at h
  | .int a, .int b, h => by
    simp only [encodePy, Nat.pair_eq_pair] at h
    exact congrArg PyObj.int (encodeInt_inj a b h.2)
  | .int _, .str _, h => by simp [encodePy, Nat.pair_eq_pair] at h
  | .int _, .list _, h => by simp [encodePy, Nat.pair_eq_pair] at h
  | .int _, .dict _, h => by simp [encodePy, Nat.pair_eq_pair] at h
  | .str _, .null, h => by simp [encodePy, Nat.pair_eq_pair] at h
  | .str _, .bool _, h => by simp [encodePy, Nat.pair_eq_pair] at h
  | .str _, .int _, h => by simp [encodePy, Nat.pair_eq_pair] at h
  | .str a, .str b, h => by
    simp only [encodePy, Nat.pair_eq_pair] at h
    exact congrArg PyObj.str (encodeStr_inj a b h.2)
  | .str _, .list _, h => by simp [encodePy, Nat.pair_eq_pair] at h
  | .str _, .dict _, h => by simp [encodePy, Nat.pair_eq_pair] at h
  | .list _, .null, h => by simp [encodePy, Nat.pair_eq_pair] at h
  | .list _, .bool _, h => by simp [encodePy, Nat.pair_eq_pair] at h
  | .list _, .int _, h => by simp [encodePy, Nat.pair_eq_pair] at h
  | .list _, .str _, h => by simp [encodePy, Nat.pair_eq_pair] at h
  | .list a, .list b, h => by
    simp only [encodePy, Nat.pair_eq_pair] at h
    exact congrArg PyObj.list (encodePyList_inj a b h.2)
  | .list _, .dict _, h => by simp [encodePy, Nat.pair_eq_pair] at h
  | .dict _, .null, h => by simp [encodePy, Nat.pair_eq_pair] at h
  | .dict _, .bool _, h => by simp [encodePy, Nat.pair_eq_pair] at h
  | .dict _, .int _, h => by simp [encodePy, Nat.pair_eq_pair] at h
  | .dict _, .str _, h => by simp [encodePy, Nat.pair_eq_pair] at h
  | .dict _, .list _, h => by simp [encodePy, Nat.pair_eq_pair] at h
  | .dict a, .dict b, h => by
    simp only [encodePy, Nat.pair_eq_pair] at h
    exact congrArg PyObj.dict (encodePyDict_inj a b h.2)

theorem encodePyList_inj : ∀ a b : List PyObj, encodePyList a = encodePyList b → a = b
  | [], [], _ => rfl
  | [], _ :: _, h => by simp [encodePyList] at h
  | _ :: _, [], h => by simp [encodePyList] at h
  | x :: xs, y :: ys, h => by
    simp only [encodePyList, Nat.add_right_cancel_iff, Nat.pair_eq_pair] at h
    have h1 : x = y := encodePy_inj x y h.1
    have h2 : xs = ys := encodePyList_inj xs ys h.2
    rw [h1, h2]

theorem encodePyDict_inj :
    ∀ a b : List (String × PyObj), encodePyDict a = encodePyDict b → a = b
  | [], [], _ => rfl
  | [], _ :: _, h => by simp [encodePyDict] at h
  | _ :: _, [], h => by simp [encodePyDict] at h
  | (k, v) :: kvs, (k2, v2) :: kvs2, h => by
    simp only [encodePyDict, Nat.add_right_cancel_iff, Nat.pair_eq_pair] at h
    have hk : k = k2 := encodeStr_inj k k2 h.1
    have hv : v = v2 := encodePy_inj v v2 h.2.1
    have hr : kvs = kvs2 := encodePyDict_inj kvs kvs2 h.2.2
    rw [hk, hv, hr]

end
theorem pyrepr_inj : ∀ a b : PyObj, pyrepr a = pyrepr b → a = b := by
  intro a b h
  have hdata : List.replicate (encodePy a) 'r' = List.replicate (encodePy b) 'r' := by
    injection h
  have hlen := congrArg List.length hdata
  simp only [List.length_replicate] at hlen
  exact encodePy_inj a b hlen

/-! ## Lemmas: catalog lookups under updates, inserts and the
reconciliation/pruning folds -/

theorem action_id_inj_of_nodup (l : List Action)
    (hnodup : (l.map (fun a => a.id)).Nodup) :
    ∀ e ∈ l, ∀ r ∈ l, e.id = r.id → e = r := by
  induction l with
  | nil => intro e he; cases he
  | cons a t ih =>
    simp only [List.map_cons, List.nodup_cons] at hnodup
    intro e he r hr hid
    rcases List.mem_cons.mp he with rfl | he' <;> rcases List.mem_cons.mp hr with rfl | hr'
    · rfl
    · exact absurd (hid ▸ List.mem_map_of_mem (fun a => a.id) hr') hnodup.1
    · exact absurd (hid ▸ List.mem_map_of_mem (fun a => a.id) he') hnodup.1
    · exact ih hnodup.2 e he' r hr' hid

theorem find?_id_of_mem (l : List Action) (r : Action)
    (hnodup : (l.map (fun a => a.id)).Nodup) (hr : r ∈ l) :
    l.find? (fun a => a.id == r.id) = some r := by
  induction l with
  | nil => cases hr
  | cons a t ih =>
    simp only [List.map_cons, List.nodup_cons] at hnodup
    rcases List.mem_cons.mp hr with rfl | hr'
    · rw [List.find?_cons_of_pos]
      simp
    · have hne : a.id ≠ r.id := fun h => hnodup.1 (h ▸ List.mem_map_of_mem (fun a => a.id) hr')
      rw [List.find?_cons_of_neg]
      · exact ih hnodup.2 hr'
      · simp [hne]

theorem find?_id_map_guard_other (l : List Action) (j i : String) (f : Action → Action)
    (hf : ∀ r, (f r).id = r.id) (hne : j ≠ i) :
    (l.map (fun a => if a.id == j then f a else a)).find? (fun a => a.id == i) =
      l.find? (fun a => a.id == i) := by
  induction l with
  | nil => rfl
  | cons a t ih =>
    by_cases hj : a.id = j
    · have h1 : (if a.id == j then f a else a) = f a := by simp [hj]
      have hni : ¬ a.id = i := by rw [hj]; exact hne
      rw [List.map_cons, h1, List.find?_cons_of_neg, List.find?_cons_of_neg, ih]
      · simp [hni]
      · simp [hf a, hni]
    · have h1 : (if a.id == j then f a else a) = a := by simp [hj]
      by_cases hii : a.id = i
      · rw [List.map_cons, h1, List.find?_cons_of_pos, List.find?_cons_of_pos]
        · simp [hii]
        · simp [hii]
      · rw [List.map_cons, h1, List.find?_cons_of_neg, List.find?_cons_of_neg, ih]
        · simp [hii]
        · simp [hii]

theorem find?_id_map_guard_self (l : List Action) (j : String) (f : Action → Action)
    (hf : ∀ r, (f r).id = r.id) :
    (l.map (fun a => if a.id == j then f a else a)).find? (fun a => a.id == j) =
      (l.find? (fun a => a.id == j)).map f := by
  induction l with
  | nil => rfl
  | cons a t ih =>
    by_cases hj : a.id = j
    · have h1 : (if a.id == j then f a else a) = f a := by simp [hj]
      rw [List.map_cons, h1, List.find?_cons_of_pos, List.find?_cons_of_pos]
      · rfl
      · simp [hj]
      · simp [hf a, hj]
    · have h1 : (if a.id == j then f a else a) = a := by simp [hj]
      rw [List.map_cons, h1, List.find?_cons_of_neg, List.find?_cons_of_neg, ih]
      · simp [hj]
      · simp [hj]

theorem findActionById_update_other (d : DB) (j i : String) (f : Action → Action)
    (hf : ∀ r, (f r).id = r.id) (hne : j ≠ i) :
    findActionById (d.updateActionById j f) i = findActionById d i :=
  find?_id_map_guard_other d.actions j i f hf hne

theorem findActionById_update_self (d : DB) (j : String) (f : Action → Action)
    (hf : ∀ r, (f r).id = r.id) :
    findActionById (d.updateActionById j f) j = (findActionById d j).map f :=
  find?_id_map_guard_self d.actions j f hf

theorem find?_id_append_single (l : List Action) (a : Action) (i : String)
    (hne : a.id ≠ i) :
    (l ++ [a]).find? (fun r => r.id == i) = l.find? (fun r => r.id == i) := by
  induction l with
  | nil =>
    have hb : (a.id == i) = false := beq_eq_false_iff_ne.mpr hne
    simp [List.find?, hb]
  | cons b t ih =>
    by_cases hb : b.id = i
    · rw [List.cons_append, List.find?_cons_of_pos, List.find?_cons_of_pos] <;> simp [hb]
    · rw [List.cons_append, List.find?_cons_of_neg, List.find?_cons_of_neg, ih] <;> simp [hb]

theorem findActionById_insert_other (d : DB) (a : Action) (i : String)
    (hne : a.id ≠ i) :
    findActionById (d.insertAction a) i = findActionById d i :=
  find?_id_append_single d.actions a i hne

theorem reconcileFold_packages (L : String → Option Action) (eid : String) :
    ∀ (acts : List Action) (st : DB × List String),
    ((acts.foldl (reconcileStep L eid) st).1).action_packages = st.1.action_packages := by
  intro acts
  induction acts with
  | nil => intro st; rfl
  | cons a t ih =>
    intro st
    rw [List.foldl_cons, ih]
    unfold reconcileStep
    cases L a.name <;> rfl

theorem disableFold_packages (seen : List String) :
    ∀ (all : List Action) (d : DB),
    ((all.foldl (disableStep seen) d)).action_packages = d.action_packages := by
  intro all
  induction all with
  | nil => intro d; rfl
  | cons r t ih =>
    intro d
    rw [List.foldl_cons, ih]
    unfold disableStep
    by_cases h : r.id ∈ seen
    · rw [if_pos (List.elem_iff.mpr h)]
    · rw [if_neg (fun hc => h (List.elem_iff.mp hc))]
      rfl

theorem reconcileFold_find_other (L : String → Option Action) (eid : String) :
    ∀ (acts : List Action) (st : DB × List String) (i : String),
    (∀ a ∈ acts, ∀ e, L a.name = some e → e.id ≠ i) →
    (∀ a ∈ acts, a.id ≠ i) →
    findActionById ((acts.foldl (reconcileStep L eid) st).1) i = findActionById st.1 i := by
  intro acts
  induction acts with
  | nil => intro st i _ _; rfl
  | cons a t ih =>
    intro st i hL hA
    rw [List.foldl_cons,
      ih _ i (fun x hx => hL x (List.mem_cons_of_mem a hx))
        (fun x hx => hA x (List.mem_cons_of_mem a hx))]
    unfold reconcileStep
    cases hLa : L a.name with
    | some e =>
      exact findActionById_update_other st.1 e.id i _ (fun r => rfl)
        (hL a (List.mem_cons_self a t) e hLa)
    | none =>
      exact findActionById_insert_other st.1 _ i (hA a (List.mem_cons_self a t))

theorem reconcileFold_seen (L : String → Option Action) (eid : String) :
    ∀ (acts : List Action) (st : DB × List String) (i : String),
    i ∈ (acts.foldl (reconcileStep L eid) st).2 →
    i ∈ st.2 ∨ (∃ a ∈ acts, ∃ e, L a.name = some e ∧ e.id = i) ∨ ∃ a ∈ acts, a.id = i := by
  intro acts
  induction acts with
  | nil => intro st i h; exact Or.inl h
  | cons a t ih =>
    intro st i h
    rw [List.foldl_cons] at h
    rcases ih _ i h with hst | h2 | h3
    · unfold reconcileStep at hst
      cases hLa : L a.name with
      | some e =>
        rw [hLa] at hst
        rcases List.mem_append.mp hst with h4 | h4
        · exact Or.inl h4
        · refine Or.inr (Or.inl ⟨a, List.mem_cons_self a t, e, hLa, ?_⟩)
          cases List.mem_singleton.mp h4
          rfl
      | none =>
        rw [hLa] at hst
        rcases List.mem_append.mp hst with h4 | h4
        · exact Or.inl h4
        · refine Or.inr (Or.inr ⟨a, List.mem_cons_self a t, ?_⟩)
          cases List.mem_singleton.mp h4
          rfl
    · rcases h2 with ⟨x, hx, e, he, hei⟩
      exact Or.inr (Or.inl ⟨x, List.mem_cons_of_mem a hx, e, he, hei⟩)
    · rcases h3 with ⟨x, hx, hxi⟩
      exact Or.inr (Or.inr ⟨x, List.mem_cons_of_mem a hx, hxi⟩)

theorem disableFold_find_other (seen : List String) :
    ∀ (all : List Action) (d : DB) (i : String), (∀ r ∈ all, r.id ≠ i) →
    findActionById (all.foldl (disableStep seen) d) i = findActionById d i := by
  intro all
  induction all with
  | nil => intro d i _; rfl
  | cons r t ih =>
    intro d i hne
    rw [List.foldl_cons, ih _ i (fun x hx => hne x (List.mem_cons_of_mem r hx))]
    unfold disableStep
    by_cases h : r.id ∈ seen
    · rw [if_pos (List.elem_iff.mpr h)]
    · rw [if_neg (fun hc => h (List.elem_iff.mp hc))]
      exact findActionById_update_other d r.id i _ (fun x => rfl)
        (hne r (List.mem_cons_self r t))

theorem disableFold_find_hit (seen : List String) :
    ∀ (all : List Action) (d : DB) (i : String), i ∉ seen →
    (∃ r ∈ all, r.id = i) →
    findActionById (all.foldl (disableStep seen) d) i =
      (findActionById d i).map (fun row => { row with enabled := false }) := by
  intro all
  induction all with
  | nil => intro d i _ hex; rcases hex with ⟨r, hr, _⟩; cases hr
  | cons r t ih =>
    intro d i hseen hex
    rw [List.foldl_cons]
    by_cases hri : r.id = i
    · have hcon : r.id ∉ seen := by rw [hri]; exact hseen
      have hstep : disableStep seen d r =
          d.updateActionById i (fun row => { row with enabled := false }) := by
        unfold disableStep
        rw [if_neg (fun hc => hcon (List.elem_iff.mp hc)), hri]
      rw [hstep]
      by_cases hrest : ∃ x ∈ t, x.id = i
      · rw [ih _ i hseen hrest,
          findActionById_update_self d i (fun row => { row with enabled := false })
            (fun x => rfl)]
        cases findActionById d i <;> rfl
      · have hall : ∀ x ∈ t, x.id ≠ i := by
          intro x hx hxi
          exact hrest ⟨x, hx, hxi⟩
        rw [disableFold_find_other seen t _ i hall,
          findActionById_update_self d i (fun row => { row with enabled := false })
            (fun x => rfl)]
    · have hex' : ∃ x ∈ t, x.id = i := by
        rcases hex with ⟨x, hx, hxi⟩
        rcases List.mem_cons.mp hx with rfl | hx'
        · exact absurd hxi hri
        · exact ⟨x, hx', hxi⟩
      have hstep : findActionById (disableStep seen d r) i = findActionById d i := by
        unfold disableStep
        by_cases h : r.id ∈ seen
        · rw [if_pos (List.elem_iff.mpr h)]
        · rw [if_neg (fun hc => h (List.elem_iff.mp hc))]
          exact findActionById_update_other d r.id i _ (fun x => rfl) hri
      rw [ih _ i hseen hex']
      rw [hstep]

/-- The central pruning fact: in the existing-package branch with
pruning requested, any persisted action row that belongs to a
different package, or whose name is not among the discovered actions,
ends up exactly as before but with `enabled := false`. -/
theorem reconcile_disables_row (pkg : ActionPackage) (acts : List Action) (db : DB)
    (ex : ActionPackage) (r : Action)
    (hfound : db.firstPackageByName pkg.name = some ex)
    (hnodup : (db.actions.map (fun a => a.id)).Nodup)
    (hfresh : ∀ a ∈ acts, ∀ q ∈ db.actions, a.id ≠ q.id)
    (hr : r ∈ db.actions)
    (hcase : r.action_package_id ≠ ex.id ∨ r.name ∉ acts.map (fun a => a.name)) :
    findActionById (reconcile pkg acts true db) r.id = some { r with enabled := false } := by
  have hrec : reconcile pkg acts true db =
      (db.allActions).foldl
        (disableStep ((acts.foldl
          (reconcileStep
            (fun n => (db.actionsOfPackage ex.id).reverse.find? (fun a => a.name == n))
            ex.id)
          (db.updatePackageById ex.id (fun p => { pkg with id := p.id }), [])).2))
        ((acts.foldl
          (reconcileStep
            (fun n => (db.actionsOfPackage ex.id).reverse.find? (fun a => a.name == n))
            ex.id)
          (db.updatePackageById ex.id (fun p => { pkg with id := p.id }), [])).1) := by
    simp only [reconcile, hfound]
    rw [if_pos trivial]
  set L := fun n => (db.actionsOfPackage ex.id).reverse.find? (fun a => a.name == n) with hLdef
  have hA : ∀ a ∈ acts, ∀ e, L a.name = some e → e.id ≠ r.id := by
    intro a ha e hLa hid
    have hmem : e ∈ db.actionsOfPackage ex.id :=
      List.mem_reverse.mp (List.mem_of_find?_eq_some hLa)
    have hmem2 := List.mem_filter.mp hmem
    have hapid : e.action_package_id = ex.id := by
      have := hmem2.2
      simpa using this
    have hname : e.name = a.name := by
      have := List.find?_some hLa
      simpa using this
    have her : e = r := action_id_inj_of_nodup db.actions hnodup e hmem2.1 r hr hid
    rcases hcase with hc | hc
    · exact hc (her ▸ hapid)
    · exact hc (by
        rw [← her, hname]
        exact List.mem_map_of_mem (fun a => a.name) ha)
  have hB : ∀ a ∈ acts, a.id ≠ r.id := fun a ha => hfresh a ha r hr
  have hseen : r.id ∉ (acts.foldl (reconcileStep L ex.id)
      (db.updatePackageById ex.id (fun p => { pkg with id := p.id }), [])).2 := by
    intro hmem
    rcases reconcileFold_seen L ex.id acts _ r.id hmem with h0 | h1 | h2
    · cases h0
    · rcases h1 with ⟨a, ha, e, he, hei⟩
      exact hA a ha e he hei
    · rcases h2 with ⟨a, ha, hai⟩
      exact hB a ha hai
  have hfind2 : findActionById ((acts.foldl (reconcileStep L ex.id)
      (db.updatePackageById ex.id (fun p => { pkg with id := p.id }), [])).1) r.id =
      some r := by
    rw [reconcileFold_find_other L ex.id acts _ r.id hA hB]
    exact find?_id_of_mem db.actions r hnodup hr
  rw [hrec,
    disableFold_find_hit _ db.allActions _ r.id hseen ⟨r, hr, rfl⟩, hfind2]
  rfl

/-- In `_add_actions_to_db` with a successful enumeration, an `ok`
outcome is exactly the reconciliation of the built actions. -/
theorem add_ok_elim (E : Externals) (uuidStart : Nat) (skip_lint : Bool)
    (python import_path stdout stderr : String) (file_rel : String → String)
    (pkg : ActionPackage) (disable : Bool) (wl : String) (db : DB)
    (entries : List PyObj) (acts : List Action) (n2 : Nat) (db' : DB)
    (hjson : E.json_loads stdout = some (.list entries))
    (hbuild : buildActions E file_rel pkg.name pkg.id wl entries uuidStart = .ok (acts, n2))
    (hok : (_add_actions_to_db E uuidStart skip_lint python import_path 0 stdout stderr
        file_rel pkg disable wl db).2 = .ok db') :
    db' = reconcile pkg acts disable db := by
  simp only [_add_actions_to_db, hjson, hbuild] at hok
  simpa using hok.symm

/-- With a successful enumeration the extensibility hook fires exactly
once, receiving the freshly built package record. -/
theorem add_hook_events (E : Externals) (uuidStart : Nat) (skip_lint : Bool)
    (python import_path stdout stderr : String) (file_rel : String → String)
    (pkg : ActionPackage) (disable : Bool) (wl : String) (db : DB)
    (entries : List PyObj)
    (hjson : E.json_loads stdout = some (.list entries)) :
    hookPackages (_add_actions_to_db E uuidStart skip_lint python import_path 0 stdout
      stderr file_rel pkg disable wl db).1 = [pkg] := by
  simp only [_add_actions_to_db, hjson]
  cases hb : buildActions E file_rel pkg.name pkg.id wl entries uuidStart with
  | error e => simp [hookPackages]
  | ok p => simp [hookPackages]

theorem find?_name_update_package (l : List ActionPackage) (pkg ex : ActionPackage)
    (hfound : l.find? (fun p => p.name == pkg.name) = some ex)
    (hnodup : (l.map (fun p => p.id)).Nodup) :
    (l.map (fun p => if p.id == ex.id then { pkg with id := p.id } else p)).find?
        (fun p => p.name == pkg.name) = some { pkg with id := ex.id } := by
  induction l with
  | nil => cases hfound
  | cons p t ih =>
    simp only [List.map_cons, List.nodup_cons] at hnodup
    by_cases hp : p.name = pkg.name
    · have hpex : p = ex := by
        have h1 : (p :: t).find? (fun p => p.name == pkg.name) = some p :=
          List.find?_cons_of_pos _ (by simp [hp])
        have := h1.symm.trans hfound
        injection this
      rw [List.map_cons, if_pos (by simp [hpex]), List.find?_cons_of_pos _ (by simp)]
      rw [hpex]
    · have hfound' : t.find? (fun p => p.name == pkg.name) = some ex := by
        rw [List.find?_cons_of_neg _ (by simp [hp])] at hfound
        exact hfound
      have hext : ex ∈ t := List.mem_of_find?_eq_some hfound'
      have hpid : p.id ≠ ex.id :=
        fun h => hnodup.1 (h ▸ List.mem_map_of_mem (fun p => p.id) hext)
      rw [List.map_cons, if_neg (by simp [hpid]), List.find?_cons_of_neg _ (by simp [hp])]
      exact ih hfound' hnodup.2

/-- Reconciliation of an already-persisted package rewrites its row
with the freshly resolved fields but keeps the persisted id. -/
theorem reconcile_updates_package_row (pkg : ActionPackage) (acts : List Action)
    (disable : Bool) (db : DB) (ex : ActionPackage)
    (hfound : db.firstPackageByName pkg.name = some ex)
    (hnodupP : (db.action_packages.map (fun p => p.id)).Nodup) :
    (reconcile pkg acts disable db).firstPackageByName pkg.name =
      some { pkg with id := ex.id } := by
  have hpk : (reconcile pkg acts disable db).action_packages =
      (db.updatePackageById ex.id (fun p => { pkg with id := p.id })).action_packages := by
    simp only [reconcile, hfound]
    cases disable with
    | true =>
      rw [if_pos rfl, disableFold_packages, reconcileFold_packages]
    | false =>
      rw [if_neg (by simp), reconcileFold_packages]
  show (reconcile pkg acts disable db).action_packages.find? (fun p => p.name == pkg.name) =
    some { pkg with id := ex.id }
  rw [hpk]
  exact find?_name_update_package db.action_packages pkg ex hfound hnodupP

/-! ## Claim C2: reconciliation scenario -/

/-- C2: for a package already persisted with actions named A and B, a
re-import whose enumeration discovers exactly B and C yields, when
pruning is enabled, A's row disabled, B's row updated in place with
`enabled=true` and its id (`idB`) preserved, and C inserted as a new
enabled row; with pruning disabled the same scenario leaves A's row
enabled and completely untouched (the pre-existing row reappears
verbatim). -/
theorem C2_reconciliation_scenario (docsA : String) :
    (_add_actions_to_db Fix.E0 1 false "/py" "/ip" 0 "BC" "" id Fix.newPkg true ""
        (Fix.dbAB docsA)).2 =
      .ok { action_packages := [{ Fix.newPkg with id := "P1" }],
            actions := [{ Fix.rowA docsA with enabled := false }, Fix.updB, Fix.newC] } ∧
    (_add_actions_to_db Fix.E0 1 false "/py" "/ip" 0 "BC" "" id Fix.newPkg false ""
        (Fix.dbAB docsA)).2 =
      .ok { action_packages := [{ Fix.newPkg with id := "P1" }],
            actions := [Fix.rowA docsA, Fix.updB, Fix.newC] } :=
  ⟨rfl, rfl⟩

/-! ## Claim C3: lint failure surfaces as a validation error -/

/-- C3: when the enumerator subprocess exits with code 1 and its
stdout parses as a JSON object whose `lint_result` key holds a lint
object that `format_lint_results` can format, the import fails with
`ActionServerValidationError` (not a runtime error) carrying exactly
the formatted lint message, no hook fires, and the catalog is left
completely unchanged (the transaction is never begun). -/
theorem C3_lint_failure_validation_error (E : Externals) (uuidStart : Nat)
    (skip_lint : Bool) (python import_path stdout stderr : String)
    (file_rel : String → String) (pkg : ActionPackage) (disable : Bool)
    (wl : String) (db : DB) (kvs lkvs : List (String × PyObj)) (m : String)
    (hjson : E.json_loads stdout = some (.dict kvs))
    (hlint : dictGet kvs "lint_result" = some (.dict lkvs))
    (hfmt : E.format_lint_results (.dict lkvs) = some m) :
    _add_actions_to_db E uuidStart skip_lint python import_path 1 stdout stderr
        file_rel pkg disable wl db =
      ([], .error (.actionServerValidationError m)) ∧
    resultingDb db (_add_actions_to_db E uuidStart skip_lint python import_path 1
        stdout stderr file_rel pkg disable wl db) = db := by
  have h : _add_actions_to_db E uuidStart skip_lint python import_path 1 stdout stderr
      file_rel pkg disable wl db = ([], .error (.actionServerValidationError m)) := by
    simp [_add_actions_to_db, hjson, hlint, hfmt]
  exact ⟨h, by rw [h]; rfl⟩

/-- Witness for C3 at a concrete lint failure. -/
theorem C3_lint_failure_validation_error_witness :
    _add_actions_to_db Fix.E0 1 false "/py" "/ip" 1 "LINT" "" id Fix.newPkg false ""
        (Fix.dbAB "dA") =
      ([], .error (.actionServerValidationError "LINTMSG")) ∧
    resultingDb (Fix.dbAB "dA") (_add_actions_to_db Fix.E0 1 false "/py" "/ip" 1 "LINT" ""
        id Fix.newPkg false "" (Fix.dbAB "dA")) = Fix.dbAB "dA" :=
  C3_lint_failure_validation_error Fix.E0 1 false "/py" "/ip" "LINT" "" id Fix.newPkg
    false "" (Fix.dbAB "dA") [("lint_result", .dict [("k", .int 1)])] [("k", .int 1)]
    "LINTMSG" rfl rfl rfl

/-! ## Claim C1: scope of pruning -/

/-- C1 counterexample: with pruning requested, re-importing package
`pkg` (persisted id `P1`) with an enumeration discovering nothing also
sets `enabled := false` on `Z` — an enabled action belonging to the
*other* package `Q1` — because the pruning loop iterates
`db.all(Action)`, not just this package's actions.  This falsifies the
claim that actions of every other package are left unchanged. -/
theorem C1_pruning_scope_counterexample :
    (_add_actions_to_db Fix.E0 1 false "/py" "/ip" 0 "EMPTY" "" id Fix.newPkg true ""
        Fix.dbPQ).2 = .ok Fix.dbPQ' ∧
    Fix.rowZ.action_package_id = "Q1" ∧ Fix.pkgP.id = "P1" ∧ Fix.rowZ.enabled = true ∧
    findActionById Fix.dbPQ' Fix.rowZ.id = some { Fix.rowZ with enabled := false } :=
  ⟨rfl, rfl, rfl, rfl, rfl⟩

/-- C1 amended: for every re-import with pruning requested of a
package whose name already exists in the catalog, every persisted
action row whose id was not matched/inserted during this run is set
`enabled := false` — not only this package's actions whose names were
not rediscovered, but equally every action belonging to every other
package in the catalog (other packages are not left unchanged). -/
theorem C1_pruning_scope_amended (E : Externals) (uuidStart : Nat) (skip_lint : Bool)
    (python import_path stdout stderr : String) (file_rel : String → String)
    (pkg : ActionPackage) (wl : String) (db : DB) (entries : List PyObj)
    (acts : List Action) (n2 : Nat) (ex : ActionPackage) (r : Action) (db' : DB)
    (hjson : E.json_loads stdout = some (.list entries))
    (hbuild : buildActions E file_rel pkg.name pkg.id wl entries uuidStart = .ok (acts, n2))
    (hfound : db.firstPackageByName pkg.name = some ex)
    (hnodup : (db.actions.map (fun a => a.id)).Nodup)
    (hfresh : ∀ a ∈ acts, ∀ q ∈ db.actions, a.id ≠ q.id)
    (hr : r ∈ db.actions)
    (hcase : r.action_package_id ≠ ex.id ∨ r.name ∉ acts.map (fun a => a.name))
    (hok : (_add_actions_to_db E uuidStart skip_lint python import_path 0 stdout stderr
        file_rel pkg true wl db).2 = .ok db') :
    findActionById db' r.id = some { r with enabled := false } := by
  rw [add_ok_elim E uuidStart skip_lint python import_path stdout stderr file_rel pkg
    true wl db entries acts n2 db' hjson hbuild hok]
  exact reconcile_disables_row pkg acts db ex r hfound hnodup hfresh hr hcase

/-- Witness for the amended C1 at the two-package catalog: the other
package's action `Z` is found disabled after the run. -/
theorem C1_pruning_scope_amended_witness :
    findActionById Fix.dbPQ' Fix.rowZ.id = some { Fix.rowZ with enabled := false } :=
  C1_pruning_scope_amended Fix.E0 1 false "/py" "/ip" "EMPTY" "" id Fix.newPkg ""
    Fix.dbPQ [] [] 1 Fix.pkgP Fix.rowZ Fix.dbPQ' rfl rfl rfl (by decide) (by simp)
    (by decide) (Or.inl (by decide)) rfl

/-! ## Claim C5: whitelist-rejected actions under pruning -/

/-- An action name rejected by the action-level whitelist never
appears among the built (to-reconcile) actions. -/
theorem buildActions_rejected_name (E : Externals) (file_rel : String → String)
    (pkgName pkgId wl n : String) (hwl : wl ≠ "")
    (hrej : E.accept_action wl pkgName n = false) :
    ∀ (entries : List PyObj) (k : Nat) (acts : List Action) (n2 : Nat),
    buildActions E file_rel pkgName pkgId wl entries k = .ok (acts, n2) →
    n ∉ acts.map (fun a => a.name) := by
  intro entries
  induction entries with
  | nil =>
    intro k acts n2 h
    simp only [buildActions] at h
    cases h
    simp
  | cons entry rest ih =>
    intro k acts n2 h
    simp only [buildActions] at h
    split at h
    · split at h
      · rename_i fields action_name hname
        split at h
        · exact ih k acts n2 h
        · rename_i hacc
          have haccT : E.accept_action wl pkgName action_name = true := by
            cases hA : E.accept_action wl pkgName action_name
            · exfalso
              apply hacc
              rw [hA, decide_eq_true hwl]
              rfl
            · rfl
          have hne : action_name ≠ n := by
            intro heq
            rw [heq, hrej] at haccT
            cases haccT
          split at h
          · split at h
            · rename_i acts2 n2b hrec
              cases h
              simp only [List.map_cons, List.mem_cons]
              intro hmem
              rcases hmem with heq | hmem2
              · exact hne heq.symm
              · exact ih _ _ _ hrec hmem2
            · simp at h
          · simp at h
      · simp at h
    · simp at h

/-- C5 counterexample: package `pkg` has a persisted enabled action
`x` (row `idX`); the enumeration rediscovers `x` but the action-level
whitelist rejects it, and pruning is requested.  The run *does* set
`x`'s row to `enabled := false`, falsifying the claim that a
whitelist-dropped action is not treated as "not found". -/
theorem C5_whitelist_drop_counterexample :
    (_add_actions_to_db Fix.Erej 1 false "/py" "/ip" 0 "X" "" id Fix.newPkg true "wl"
        Fix.dbX).2 = .ok Fix.dbX' ∧
    Fix.rowX.enabled = true ∧
    findActionById Fix.dbX' Fix.rowX.id = some { Fix.rowX with enabled := false } :=
  ⟨rfl, rfl, rfl⟩

/-- C5 amended: with pruning requested, a previously persisted action
whose name is enumerated this run but rejected by the action-level
whitelist is dropped from the set to reconcile — and therefore *is*
treated as "not found" for disabling purposes: its row is set to
`enabled := false` by this run. -/
theorem C5_whitelist_drop_amended (E : Externals) (uuidStart : Nat) (skip_lint : Bool)
    (python import_path stdout stderr : String) (file_rel : String → String)
    (pkg : ActionPackage) (wl : String) (db : DB) (entries : List PyObj)
    (fields : List (String × PyObj)) (acts : List Action) (n2 : Nat)
    (ex : ActionPackage) (r : Action) (db' : DB)
    (hjson : E.json_loads stdout = some (.list entries))
    (_hmem : PyObj.dict fields ∈ entries)
    (_hename : dictGet fields "name" = some (.str r.name))
    (hwl : wl ≠ "")
    (hrej : E.accept_action wl pkg.name r.name = false)
    (hbuild : buildActions E file_rel pkg.name pkg.id wl entries uuidStart = .ok (acts, n2))
    (hfound : db.firstPackageByName pkg.name = some ex)
    (hnodup : (db.actions.map (fun a => a.id)).Nodup)
    (hfresh : ∀ a ∈ acts, ∀ q ∈ db.actions, a.id ≠ q.id)
    (hr : r ∈ db.actions)
    (hok : (_add_actions_to_db E uuidStart skip_lint python import_path 0 stdout stderr
        file_rel pkg true wl db).2 = .ok db') :
    r.name ∉ acts.map (fun a => a.name) ∧
    findActionById db' r.id = some { r with enabled := false } := by
  have hdrop : r.name ∉ acts.map (fun a => a.name) :=
    buildActions_rejected_name E file_rel pkg.name pkg.id wl r.name hwl hrej entries
      uuidStart acts n2 hbuild
  refine ⟨hdrop, ?_⟩
  rw [add_ok_elim E uuidStart skip_lint python import_path stdout stderr file_rel pkg
    true wl db entries acts n2 db' hjson hbuild hok]
  exact reconcile_disables_row pkg acts db ex r hfound hnodup hfresh hr (Or.inr hdrop)

/-- Witness for the amended C5 at the concrete `x` scenario. -/
theorem C5_whitelist_drop_amended_witness :
    "x" ∉ ([] : List Action).map (fun a => a.name) ∧
    findActionById Fix.dbX' Fix.rowX.id = some { Fix.rowX with enabled := false } :=
  C5_whitelist_drop_amended Fix.Erej 1 false "/py" "/ip" "X" "" id Fix.newPkg "wl"
    Fix.dbX [Fix.entryX] Fix.entryXFields [] 1 Fix.pkgP Fix.rowX Fix.dbX' rfl
    (List.mem_singleton.mpr rfl) rfl (by decide) rfl rfl rfl (by decide) (by simp)
    (by decide) rfl

/-! ## Lemmas: substring facts -/

theorem charsStartWith_self_append : ∀ (b c : List Char), charsStartWith (b ++ c) b = true := by
  intro b
  induction b with
  | nil => intro c; cases c <;> rfl
  | cons x xs ih =>
    intro c
    simp [charsStartWith, ih]

theorem charsContain_nil_needle : ∀ (l : List Char), charsContain l [] = true := by
  intro l
  cases l <;> rfl

theorem charsContain_self_append : ∀ (mid post : List Char),
    charsContain (mid ++ post) mid = true := by
  intro mid post
  cases mid with
  | nil => exact charsContain_nil_needle post
  | cons m ms =>
    show (charsStartWith (m :: (ms ++ post)) (m :: ms) || _) = true
    rw [Bool.or_eq_true]
    left
    simp [charsStartWith, charsStartWith_self_append]

theorem charsContain_append_left : ∀ (a rest needle : List Char),
    charsContain rest needle = true → charsContain (a ++ rest) needle = true := by
  intro a
  induction a with
  | nil => intro rest needle h; exact h
  | cons x xs ih =>
    intro rest needle h
    show (charsStartWith _ needle || charsContain (xs ++ rest) needle) = true
    rw [Bool.or_eq_true]
    exact Or.inr (ih rest needle h)

theorem charsStartWith_extend : ∀ (n l e : List Char),
    charsStartWith l n = true → charsStartWith (l ++ e) n = true := by
  intro n
  induction n with
  | nil => intro l e _; cases l ++ e <;> rfl
  | cons x xs ih =>
    intro l e h
    cases l with
    | nil => cases h
    | cons y ys =>
      simp only [charsStartWith, Bool.and_eq_true] at h
      simp [charsStartWith, h.1, ih ys e h.2]

theorem charsContain_extend_right : ∀ (hay extra needle : List Char),
    charsContain hay needle = true → charsContain (hay ++ extra) needle = true := by
  intro hay
  induction hay with
  | nil =>
    intro extra needle h
    cases needle with
    | nil => exact charsContain_nil_needle extra
    | cons x xs => cases h
  | cons y ys ih =>
    intro extra needle h
    rcases Bool.or_eq_true _ _ |>.mp h with h1 | h2
    · show (charsStartWith (y :: ys ++ extra) needle || _) = true
      rw [Bool.or_eq_true]
      exact Or.inl (charsStartWith_extend needle (y :: ys) extra h1)
    · show (_ || charsContain (ys ++ extra) needle) = true
      rw [Bool.or_eq_true]
      exact Or.inr (ih extra needle h2)

theorem strContains_append_mid (a b c : String) : strContains (a ++ b ++ c) b = true := by
  show charsContain (a ++ b ++ c).data b.data = true
  rw [String.data_append, String.data_append, List.append_assoc]
  exact charsContain_append_left a.data _ _ (charsContain_self_append b.data c.data)

theorem strContains_append_right (x y n : String) (h : strContains x n = true) :
    strContains (x ++ y) n = true := by
  show charsContain (x ++ y).data n.data = true
  rw [String.data_append]
  exact charsContain_extend_right x.data y.data n.data h

/-! ## Claim C9: version-probe failure diagnostics -/

/-- C9 counterexample: when the version-probe subprocess fails, the
raised runtime error's message does not embed the command line that
was used (neither the assembled `list2cmdline` form nor even its
distinctive `print(...)` fragment), though it does embed the
interpreter path — falsifying the claim that the message embeds the
exact command line. -/
theorem C9_probe_message_counterexample :
    _get_actions_version "/py" "sema4ai.actions" none =
      .error (.runtimeError (version_probe_msg "sema4ai.actions" "/py")) ∧
    strContains (version_probe_msg "sema4ai.actions" "/py")
      (list2cmdline (version_probe_cmdline "/py" "sema4ai.actions")) = false ∧
    strContains (version_probe_msg "sema4ai.actions" "/py") "print(" = false ∧
    strContains (version_probe_msg "sema4ai.actions" "/py") "/py" = true :=
  ⟨rfl, by decide, by decide, by decide⟩

/-- C9 amended: every failure of the version probe — the subprocess
failing to run or its output failing to parse as a dot-separated
integer tuple — raises a runtime error whose message embeds the
interpreter path and the expected dependency declaration (the library
name with dots replaced by dashes, to be placed in `package.yaml`),
but not the command line used. -/
theorem C9_probe_message_amended (python libname : String) (out : Option String)
    (hfail : out = none ∨ ∃ s, out = some s ∧ parseVersionOutput s = none) :
    _get_actions_version python libname out =
      .error (.runtimeError (version_probe_msg libname python)) ∧
    strContains (version_probe_msg libname python) python = true ∧
    strContains (version_probe_msg libname python) (replaceDotsWithDashes libname) = true := by
  refine ⟨?_, ?_, ?_⟩
  · rcases hfail with rfl | ⟨s, rfl, hparse⟩
    · rfl
    · simp [_get_actions_version, hparse]
  · simp only [version_probe_msg]
    exact strContains_append_mid _ python "\n"
  · simp only [version_probe_msg]
    apply strContains_append_right
    apply strContains_append_right
    exact strContains_append_mid _ (replaceDotsWithDashes libname) _

/-- Witness for the amended C9 at a concrete probe failure. -/
theorem C9_probe_message_amended_witness :
    _get_actions_version "/py" "robocorp.actions" none =
      .error (.runtimeError (version_probe_msg "robocorp.actions" "/py")) ∧
    strContains (version_probe_msg "robocorp.actions" "/py") "/py" = true ∧
    strContains (version_probe_msg "robocorp.actions" "/py")
      (replaceDotsWithDashes "robocorp.actions") = true :=
  C9_probe_message_amended "/py" "robocorp.actions" none (Or.inl rfl)

/-! ## Claim C6: version gate boundary -/

/-- C6: when only the deprecated library is found (the primary probe
raises, the deprecated probe answers), a discovered version exactly
`0.0.7` passes the gate and the import proceeds to enumeration and
reconciliation, while `0.0.6` fails with a validation error whose
message names the expected minimum `0.0.7` — pointing at the manifest
when one is in use, and at the active interpreter otherwise. -/
theorem C6_version_gate_boundary (p x : String) :
    (import_action_package Fix.E0 (Fix.oGate p "0.0.7\n") false false ""
        (DB.mk [] [])).2 = .ok (DB.mk [Fix.pkgGate] []) ∧
    (import_action_package Fix.E0 (Fix.oGate p "0.0.6\n") false false ""
        (DB.mk [] [])).2 =
      .error (.actionServerValidationError
        (robocorp_version_low_manifest_msg [0, 0, 6] (p ++ "/package.yaml"))) ∧
    (import_action_package Fix.E0 (Fix.oNoManifest x "0.0.6\n") false false ""
        (DB.mk [] [])).2 =
      .error (.actionServerValidationError
        (robocorp_version_low_interp_msg [0, 0, 6] x)) ∧
    strContains (robocorp_version_low_manifest_msg [0, 0, 6] "/m")
      (versionStr expectedMinVersion) = true ∧
    strContains (robocorp_version_low_interp_msg [0, 0, 6] "/i")
      (versionStr expectedMinVersion) = true :=
  ⟨rfl, rfl, rfl, by decide, by decide⟩

/-! ## Claim C8: package-level whitelist short-circuit -/

/-- C8: when the resolved package name is rejected by a non-empty
whitelist, `import_action_package` returns normally before
provisioning is attempted: no event (provisioning call or hook) is
recorded and the catalog is returned unchanged. -/
theorem C8_whitelist_package_short_circuit (E : Externals) (o : ImportOracle)
    (d s : Bool) (wl : String) (db : DB) (n : String)
    (hex : o.path_exists = true) (hdir : o.path_is_dir = true)
    (hname : resolvedNameStep o = some n)
    (hwl : wl ≠ "")
    (hrej : E.accept_action_package wl n = false) :
    import_action_package E o d s wl db = ([], .ok db) ∧
    resultingDb db (import_action_package E o d s wl db) = db := by
  have h : import_action_package E o d s wl db = ([], .ok db) := by
    simp [import_action_package, hex, hdir, hname, hrej, hwl]
  exact ⟨h, by rw [h]; rfl⟩

/-- Witness for C8: a concrete rejected package. -/
theorem C8_whitelist_package_short_circuit_witness :
    import_action_package Fix.ErejPkg (Fix.oGate "/ip" "0.0.7\n") false false "wl"
      (Fix.dbAB "dA") = ([], .ok (Fix.dbAB "dA")) ∧
    resultingDb (Fix.dbAB "dA") (import_action_package Fix.ErejPkg
      (Fix.oGate "/ip" "0.0.7\n") false false "wl" (Fix.dbAB "dA")) = Fix.dbAB "dA" :=
  C8_whitelist_package_short_circuit Fix.ErejPkg (Fix.oGate "/ip" "0.0.7\n") false false
    "wl" (Fix.dbAB "dA") "pkg" rfl rfl rfl (by decide) rfl

/-! ## Claim C7: cache key and the parsed manifest -/

/-- C7 counterexample: two parsed manifests that are equal as mappings
(a permutation of the same key/value pairs, with identical lookups for
every key) but differ in insertion order receive different cache keys,
because the key is computed from the order-sensitive canonical
representation of the parsed value.  This falsifies the claim that
insignificant key order cannot change the cache key. -/
theorem C7_cache_key_counterexample :
    Fix.c7a.Perm Fix.c7b ∧
    (∀ k, dictGet Fix.c7a k = dictGet Fix.c7b k) ∧
    condahash_of id (.dict Fix.c7a) ≠ condahash_of id (.dict Fix.c7b) := by
  refine ⟨List.Perm.swap ("name", PyObj.str "n")
    ("dependencies", PyObj.list [PyObj.str "d1"]) [], ?_, ?_⟩
  · intro k
    by_cases h1 : "name" = k
    · subst h1; rfl
    · by_cases h2 : "dependencies" = k
      · subst h2; rfl
      · have e1 : ("name" == k) = false := beq_eq_false_iff_ne.mpr h1
        have e2 : ("dependencies" == k) = false := beq_eq_false_iff_ne.mpr h2
        simp [dictGet, Fix.c7a, Fix.c7b, List.find?, e1, e2]
  · intro h
    have heq : PyObj.dict Fix.c7a = PyObj.dict Fix.c7b := pyrepr_inj _ _ h
    simp [Fix.c7a, Fix.c7b] at heq

/-- C7 amended: the environment cache key is a function of the parsed
manifest contents only — identical parsed values always yield
identical keys (so formatting-only edits cannot invalidate the cache),
and, for an injective hash, different parsed values yield different
keys; but dict key order is part of the parsed value's canonical
representation, so reordered mappings may yield different keys. -/
theorem C7_cache_key_amended (hash_fn : String → String)
    (hinj : Function.Injective hash_fn) :
    (∀ c1 c2 : PyObj, c1 = c2 → condahash_of hash_fn c1 = condahash_of hash_fn c2) ∧
    Function.Injective (condahash_of hash_fn) := by
  constructor
  · intro c1 c2 h
    rw [h]
  · intro c1 c2 h
    exact pyrepr_inj c1 c2 (hinj h)

/-- Witness for the amended C7 with the identity hash: distinct parsed
contents receive distinct keys. -/
theorem C7_cache_key_amended_witness :
    condahash_of id (PyObj.str "a") ≠ condahash_of id (PyObj.str "b") := by
  intro h
  have heq := (C7_cache_key_amended id (fun a b hh => hh)).2 h
  simp at heq

/-! ## Claim C4: the batch driver's error boundary -/

/-- C4: the batch driver catches exactly the validation errors: a
validation error raised while importing a directory makes the driver
return exit code 1 with the catalog as committed so far and the
remaining directories unprocessed, and no validation error ever
escapes the driver; only non-validation errors propagate.  Bad
directories are one of the validation-error kinds. -/
theorem C4_validation_error_boundary :
    (∀ (E : Externals) (os : List ImportOracle) (d s : Bool) (w : String) (db : DB)
        (e : ImportError),
      _import_actions E os d s w db = .error e → isValidationError e = false) ∧
    (∀ (E : Externals) (o : ImportOracle) (os : List ImportOracle) (d s : Bool)
        (w : String) (db : DB) (e : ImportError),
      (import_action_package E o d s w db).2 = .error e → isValidationError e = true →
      _import_actions E (o :: os) d s w db = .ok (1, db)) ∧
    (∀ (E : Externals) (o : ImportOracle) (d s : Bool) (w : String) (db : DB),
      o.path_exists = false →
      (import_action_package E o d s w db).2 =
        .error (.actionPackageError ("Unable to import action package from directory: " ++
          o.import_path ++ " (directory does not exist).")) ∧
      isValidationError (.actionPackageError
        ("Unable to import action package from directory: " ++
          o.import_path ++ " (directory does not exist).")) = true) := by
  refine ⟨?_, ?_, ?_⟩
  · intro E os d s w
    induction os with
    | nil => intro db e h; cases h
    | cons o rest ih =>
      intro db e h
      simp only [_import_actions] at h
      cases himp : (import_action_package E o d s w db).2 with
      | ok db2 =>
        simp only [himp] at h
        exact ih db2 e h
      | error e2 =>
        simp only [himp] at h
        by_cases hv : isValidationError e2 = true
        · rw [if_pos hv] at h
          cases h
        · rw [if_neg hv] at h
          cases h
          exact Bool.not_eq_true _ |>.mp hv
  · intro E o os d s w db e himp hv
    simp only [_import_actions, himp]
    rw [if_pos hv]
  · intro E o d s w db hpe
    constructor
    · simp [import_action_package, hpe]
    · rfl

/-- Witness for C4: a missing directory aborts the batch with exit
code 1 and the catalog unchanged, without the exception escaping. -/
theorem C4_validation_error_boundary_witness :
    _import_actions Fix.E0 [Fix.badO] false false "" (Fix.dbAB "dA") =
      .ok (1, Fix.dbAB "dA") :=
  C4_validation_error_boundary.2.1 Fix.E0 Fix.badO [] false false "" (Fix.dbAB "dA")
    (.actionPackageError ("Unable to import action package from directory: " ++
      "/ip" ++ " (directory does not exist)."))
    rfl rfl

/-! ## Claim C10: the extensibility hook -/

theorem hookPackages_append : ∀ (a b : List ImportEvent),
    hookPackages (a ++ b) = hookPackages a ++ hookPackages b := by
  intro a b
  induction a with
  | nil => rfl
  | cons e rest ih =>
    cases e with
    | provisionCalled ch => simpa [hookPackages] using ih
    | hookCalled pkg al => simp [hookPackages, ih]

/-- The hook fires at most once per `_add_actions_to_db` run, and only
with the package record handed in. -/
theorem add_hook_id (E : Externals) (uuidStart : Nat) (skip_lint : Bool)
    (python import_path : String) (rc : Int) (stdout stderr : String)
    (file_rel : String → String) (pkg : ActionPackage) (disable : Bool) (wl : String)
    (db : DB) :
    hookPackages (_add_actions_to_db E uuidStart skip_lint python import_path rc stdout
      stderr file_rel pkg disable wl db).1 = [] ∨
    hookPackages (_add_actions_to_db E uuidStart skip_lint python import_path rc stdout
      stderr file_rel pkg disable wl db).1 = [pkg] := by
  simp only [_add_actions_to_db]
  split
  · split
    · left; rfl
    · left; rfl
  · split
    · left; rfl
    · split
      · right; rfl
      · right; rfl
    · left; rfl

/-- Every package the hook observes during `import_action_package`
carries the id drawn from the `gen_uuid` supply at counter 0 — the id
freshly generated for this import. -/
theorem import_hook_id (E : Externals) (o : ImportOracle) (d s : Bool) (w : String)
    (db : DB) :
    ∀ p ∈ hookPackages (import_action_package E o d s w db).1, p.id = E.gen_uuid 0 := by
  intro p hp
  simp only [import_action_package] at hp
  split at hp
  · simp [hookPackages] at hp
  · split at hp
    · simp [hookPackages] at hp
    · split at hp
      · simp [hookPackages] at hp
      · split at hp
        · simp [hookPackages] at hp
        · split at hp
          · simp [hookPackages] at hp
          · rename_i condahash use_env provisioned henv
            have hevs0 : hookPackages
                (if provisioned then [ImportEvent.provisionCalled condahash] else []) = [] := by
              cases provisioned <;> rfl
            split at hp
            · rw [hevs0] at hp
              simp at hp
            · rw [hookPackages_append, hevs0, List.nil_append] at hp
              rcases add_hook_id E 1 s o.python_exe o.import_path o.enum_returncode
                o.enum_stdout o.enum_stderr o.file_rel _ d w db with hc | hc
              · rw [hc] at hp
                cases hp
              · rw [hc] at hp
                cases List.mem_singleton.mp hp
                rfl

/-- C10: on every successful enumeration the extensibility hook is
invoked exactly once, with the `ActionPackage` record built for this
run — whose `id` is the one freshly drawn from the `gen_uuid`
supply (counter 0) — so, with `gen_uuid` fresh with respect to the
catalog (`hfresh`), when a package of the same name already exists the
id the hook observes differs from the persisted id, which
reconciliation preserves by stripping `id` from the update. -/
theorem C10_hook_once_fresh_preserved (E : Externals) (uuidStart : Nat)
    (skip_lint : Bool) (python import_path stdout stderr : String)
    (file_rel : String → String) (pkg : ActionPackage) (disable : Bool) (wl : String)
    (db : DB) (entries : List PyObj) (ex : ActionPackage)
    (hjson : E.json_loads stdout = some (.list entries))
    (hfound : db.firstPackageByName pkg.name = some ex)
    (hnodupP : (db.action_packages.map (fun p => p.id)).Nodup)
    (hfresh : pkg.id ∉ db.action_packages.map (fun p => p.id)) :
    (∀ (o : ImportOracle) (d2 s2 : Bool) (w2 : String) (db2 : DB),
      ∀ p ∈ hookPackages (import_action_package E o d2 s2 w2 db2).1,
        p.id = E.gen_uuid 0) ∧
    hookPackages (_add_actions_to_db E uuidStart skip_lint python import_path 0 stdout
      stderr file_rel pkg disable wl db).1 = [pkg] ∧
    ex.id ≠ pkg.id ∧
    (∀ db', (_add_actions_to_db E uuidStart skip_lint python import_path 0 stdout stderr
        file_rel pkg disable wl db).2 = .ok db' →
      db'.firstPackageByName pkg.name = some { pkg with id := ex.id }) := by
  refine ⟨fun o d2 s2 w2 db2 => import_hook_id E o d2 s2 w2 db2,
    add_hook_events E uuidStart skip_lint python import_path stdout stderr file_rel pkg
      disable wl db entries hjson, ?_, ?_⟩
  · intro h
    apply hfresh
    rw [← h]
    exact List.mem_map_of_mem (fun p => p.id) (List.mem_of_find?_eq_some hfound)
  · intro db' hok
    cases hb : buildActions E file_rel pkg.name pkg.id wl entries uuidStart with
    | error e =>
      have herr : (_add_actions_to_db E uuidStart skip_lint python import_path 0 stdout
          stderr file_rel pkg disable wl db).2 = .error e := by
        simp [_add_actions_to_db, hjson, hb]
      rw [herr] at hok
      cases hok
    | ok pr =>
      obtain ⟨acts, n2⟩ := pr
      rw [add_ok_elim E uuidStart skip_lint python import_path stdout stderr file_rel pkg
        disable wl db entries acts n2 db' hjson hb hok]
      exact reconcile_updates_package_row pkg acts disable db ex hfound hnodupP

/-- Witness for C10: in the `dbAB` catalog the hook observes the fresh
record (`id = uuid0`), distinct from the persisted `P1`. -/
theorem C10_hook_once_fresh_preserved_witness :
    Fix.pkgP.id ≠ Fix.newPkg.id ∧
    hookPackages (_add_actions_to_db Fix.E0 1 false "/py" "/ip" 0 "EMPTY" "" id
      Fix.newPkg true "" (Fix.dbAB "dA")).1 = [Fix.newPkg] :=
  ⟨(C10_hook_once_fresh_preserved Fix.E0 1 false "/py" "/ip" "EMPTY" "" id Fix.newPkg
      true "" (Fix.dbAB "dA") [] Fix.pkgP rfl rfl (by decide) (by decide)).2.2.1,
    (C10_hook_once_fresh_preserved Fix.E0 1 false "/py" "/ip" "EMPTY" "" id Fix.newPkg
      true "" (Fix.dbAB "dA") [] Fix.pkgP rfl rfl (by decide) (by decide)).2.1⟩

end ActionsImport

